import Mathlib

/-
Verification of teuthology/provision/cloud/openstack.py: the OpenStack
node-provisioning orchestrator.  Backend (libcloud driver) interactions are
embedded as explicit oracles: each remote call is a parameter giving its
outcome, and exceptions are values of Except types.
-/

namespace OpenStack

/-! ## Retry wrapper (openstack.py lines 26-48) -/

/-- Errors raised by a backend call: RateLimitReachedError is the only member
of RETRY_EXCEPTIONS; every other exception is modelled as fatal with a code. -/
inductive CloudErr where
  | rateLimit : CloudErr
  | fatal : Nat → CloudErr
deriving DecidableEq

/-- Outcome of the retry wrapper: a result together with the number of
invocations performed, an uncaught exception after some invocations, or
exhaustion of the safe_while budget (MaxWhileTries). -/
inductive RetryOutcome (α : Type) where
  | ok : α → Nat → RetryOutcome α
  | raised : CloudErr → Nat → RetryOutcome α
  | exhausted : Nat → RetryOutcome α
deriving DecidableEq

/-- safe_while(sleep=1, tries=24, increment=1) allows 24 loop iterations
before raising MaxWhileTries. -/
def safeWhileTries : Nat := 24

/-- Core loop of retry: the operation is an oracle mapping the invocation
index (0-based) to its outcome.  A rateLimit error is swallowed and the loop
continues; any other exception propagates at once. -/
def retryGo {α : Type} (f : Nat → Except CloudErr α) : Nat → Nat → RetryOutcome α
  | 0, n => RetryOutcome.exhausted n
  | fuel + 1, n =>
    match f n with
    | Except.ok a => RetryOutcome.ok a (n + 1)
    | Except.error CloudErr.rateLimit => retryGo f fuel (n + 1)
    | Except.error (CloudErr.fatal c) => RetryOutcome.raised (CloudErr.fatal c) (n + 1)

/-- retry(function, args) from openstack.py: call the operation inside
safe_while, retrying only on RETRY_EXCEPTIONS. -/
def retry {α : Type} (f : Nat → Except CloudErr α) : RetryOutcome α :=
  retryGo f safeWhileTries 0

/-! ## Config resolver (_read_conf, openstack.py lines 148-179) -/

/-- A configuration source, flattened to its numeric leaves: a finite map
from (path-) keys to numeric values, absent keys mapping to none. -/
abbrev ConfSrc := String → Option Nat

/-- Modelled from the spec: util.combine_dicts is not part of src/ (only its
call site in _read_conf is).  Per spec section 4.2 the flattened sources are
folded left to right and, for every numeric leaf key, the maximum value among
the sources defining it is kept; the call site passes the comparator
lambda x, y: x > y, i.e. a later value replaces an earlier one exactly when
it is larger. -/
def combine_dicts (confs : List ConfSrc) : ConfSrc :=
  fun k =>
    confs.foldl
      (fun acc c =>
        match acc, c k with
        | none, v => v
        | some a, none => some a
        | some a, some v => some (max v a))
      none

/-- _read_conf: builds the ordered source list (full_conf, driver_conf,
legacy_conf, defaults) -- each tier is deep-copied and, when it is a list,
extended into the flat list, so each tier is modelled as a list of sources
(a single mapping is a singleton, an absent tier contributes an empty
mapping, equivalently the empty list) -- and combines them. -/
def _read_conf (full_conf driver_conf legacy_conf defaults : List ConfSrc) : ConfSrc :=
  combine_dicts (full_conf ++ driver_conf ++ legacy_conf ++ defaults)

/-! ## String helpers (Python lower(), in, startswith) -/

/-- Python str.lower(), character by character. -/
def lowerStr (s : String) : String :=
  String.mk (s.toList.map Char.toLower)

/-- Python list/str startswith on character lists. -/
def leadsWith : List Char → List Char → Bool
  | [], _ => true
  | _ :: _, [] => false
  | a :: as, b :: bs => a == b && leadsWith as bs

/-- Python substring containment (the in operator) on character lists. -/
def hasSub (pat : List Char) : List Char → Bool
  | [] => pat.isEmpty
  | c :: t => leadsWith pat (c :: t) || hasSub pat t

/-- Python str in str. -/
def strIn (pat hay : String) : Bool :=
  hasSub pat.toList hay.toList

/-- Python str.startswith. -/
def strLeads (pre s : String) : Bool :=
  leadsWith pre.toList s.toList

/-- A case-insensitive substring match as the spec words it: both the
pattern and the image name are compared after lowercasing.  This definition
follows the spec, not the source, and exists only to be compared with the
behavior of the source's image property. -/
def specCaseInsensitiveMatch (pat name : String) : Bool :=
  strIn (lowerStr pat) (lowerStr name)

/-! ## Image selection (image property, openstack.py lines 285-305) -/

structure Image where
  name : String
deriving DecidableEq

inductive ImageErr where
  | noMatchingImage : String → String → ImageErr
deriving DecidableEq

/-- The image property: for each of the two os_specs templates
(os_type space os_version, then os_type hyphen os_version) collect the
catalog images whose lowercased name contains the formatted template; the
loop breaks at the first template with matches and returns matches[0];
if the final matches list is empty a RuntimeError carrying os_type and
os_version is raised. -/
def image (images : List Image) (os_type os_version : String) : Except ImageErr Image :=
  match images.filter (fun i => strIn (os_type ++ " " ++ os_version) (lowerStr i.name)) with
  | m :: _ => Except.ok m
  | [] =>
    match images.filter (fun i => strIn (os_type ++ "-" ++ os_version) (lowerStr i.name)) with
    | m :: _ => Except.ok m
    | [] => Except.error (ImageErr.noMatchingImage os_type os_version)

/-! ## Size selection (size property, openstack.py lines 307-324) -/

structure Size where
  name : String
  ram : Nat
  disk : Nat
  vcpus : Nat
deriving DecidableEq

/-- good_size from the size property: a size is rejected when its ram, disk
or vcpus is below the requested value. -/
def good_size (ram disk cpu : Nat) (s : Size) : Bool :=
  if s.ram < ram || s.disk < disk || s.vcpus < cpu then false else true

/-- The Python sort key tuple (s.ram, s.disk, s.vcpus), compared
lexicographically, as the sort order used by sorted(). -/
def sizeKeyLE (a b : Size) : Prop :=
  (a.ram < b.ram ||
    (a.ram == b.ram &&
      (a.disk < b.disk || (a.disk == b.disk && a.vcpus ≤ b.vcpus)))) = true

instance : DecidableRel sizeKeyLE := fun a b =>
  inferInstanceAs (Decidable ((a.ram < b.ram ||
    (a.ram == b.ram &&
      (a.disk < b.disk || (a.disk == b.disk && a.vcpus ≤ b.vcpus)))) = true))

instance : IsTotal Size sizeKeyLE :=
  ⟨by
    intro a b
    simp only [sizeKeyLE, Bool.or_eq_true, Bool.and_eq_true, decide_eq_true_eq, beq_iff_eq]
    omega⟩

instance : IsTrans Size sizeKeyLE :=
  ⟨by
    intro a b c hab hbc
    simp only [sizeKeyLE, Bool.or_eq_true, Bool.and_eq_true, decide_eq_true_eq,
      beq_iff_eq] at hab hbc ⊢
    omega⟩

/-- The size property: filter the catalog by good_size, sort the survivors
by the key tuple (a stable sort, as Python's sorted) and take element 0.
An empty filtered list makes the subscript raise IndexError, modelled as
none. -/
def size (sizes : List Size) (ram disk cpu : Nat) : Option Size :=
  (List.insertionSort sizeKeyLE (sizes.filter (good_size ram disk cpu))).head?

/-! ## Security groups (security_groups property, openstack.py lines 326-343) -/

structure SecurityGroup where
  name : String
  id : Nat
deriving DecidableEq

inductive SecGroupErr where
  | notFound : String → SecGroupErr
  | ambiguous : String → SecGroupErr
deriving DecidableEq

/-- The loop body of the security_groups property: for each requested name,
the groups with an exactly equal name are collected; zero matches raises the
no-groups-found RuntimeError, more than one raises the more-than-one
RuntimeError, exactly one is appended to the result. -/
def resolveGroupNames (groups : List SecurityGroup) :
    List String → Except SecGroupErr (List SecurityGroup)
  | [] => Except.ok []
  | n :: rest =>
    match groups.filter (fun g => g.name == n) with
    | [] => Except.error (SecGroupErr.notFound n)
    | [g] => (resolveGroupNames groups rest).map (fun r => g :: r)
    | _ :: _ :: _ => Except.error (SecGroupErr.ambiguous n)

/-- The security_groups property: when the provider conf carries no
security_groups entry the property returns None (no restriction); otherwise
each configured name is resolved against the catalog. -/
def security_groups (conf_group_names : Option (List String))
    (groups : List SecurityGroup) : Except SecGroupErr (Option (List SecurityGroup)) :=
  match conf_group_names with
  | none => Except.ok none
  | some names => (resolveGroupNames groups names).map some

/-! ## Node accessor (node property, openstack.py lines 371-388) -/

structure CloudNode where
  name : String
  id : Nat
deriving DecidableEq

inductive NodeLookupErr where
  | attributeError : NodeLookupErr
  | ambiguous : String → NodeLookupErr
deriving DecidableEq

/-- Result of one access of the node property: the value the property
returns (none when the zero-match branch returns None), the cache
(self._node) afterwards, and how many list_nodes driver queries ran. -/
structure NodeLookup where
  found : Option CloudNode
  cache : Option CloudNode
  listCalls : Nat
deriving DecidableEq

/-- The node property.  When self._node is already set it is returned with
no driver query.  Otherwise list_nodes runs once and a for-loop over its
result starts; the loop body does not depend on the loop variable, so the
first iteration decides everything: zero exact-name matches logs a warning
and returns None without setting the cache, exactly one match is cached and
returned, more than one raises RuntimeError.  When the catalog is empty the
loop body never runs and the final return of self._node raises
AttributeError, since the attribute was never assigned. -/
def node (selfName : String) (cache : Option CloudNode) (catalog : List CloudNode) :
    Except NodeLookupErr NodeLookup :=
  match cache with
  | some n => Except.ok (NodeLookup.mk (some n) (some n) 0)
  | none =>
    match catalog with
    | [] => Except.error NodeLookupErr.attributeError
    | _ :: _ =>
      match catalog.filter (fun nd => nd.name == selfName) with
      | [] => Except.ok (NodeLookup.mk none none 1)
      | [m] => Except.ok (NodeLookup.mk (some m) (some m) 1)
      | _ :: _ :: _ => Except.error (NodeLookupErr.ambiguous selfName)

/-! ## Volume names and provisioning (_create_volumes, openstack.py lines 218-241) -/

/-- Python percent-formatting of an index with the zero-padding width of the
name template: the decimal digits of i, left-padded with zeros up to width. -/
def zeroPad (width i : Nat) : String :=
  String.mk (List.replicate (width - (toString i).length) '0') ++ toString i

/-- The padding width of the volume name template: the length of
str(vol_count - 1), with Python integer subtraction. -/
def volNameWidth (vol_count : Nat) : Nat :=
  (toString ((vol_count : Int) - 1)).length

/-- vol_names from _create_volumes: for each index below the configured
volume count, the node name, an underscore, and the zero-padded index. -/
def vol_names (nodeName : String) (vol_count : Nat) : List String :=
  (List.range vol_count).map
    (fun i => nodeName ++ "_" ++ zeroPad (volNameWidth vol_count) i)

/-- A cloud block-storage volume, identified by its name. -/
structure Volume where
  name : String
deriving DecidableEq

/-- Loop of _create_volumes over the remaining names, with i the index of
the next volume.  createOk and attachOk are oracles for the outcome of the
retried create_volume and attach_volume calls.  Returns the boolean the
function returns (False as soon as any call raises, the except-clause
having logged the exception) together with the names of the volumes that
were actually created on the backend (a volume whose attach failed was
still created). -/
def createVolumesGo (createOk attachOk : Nat → Bool) :
    List String → Nat → Bool × List String
  | [], _ => (true, [])
  | n :: rest, i =>
    if createOk i then
      if attachOk i then
        let r := createVolumesGo createOk attachOk rest (i + 1)
        (r.1, n :: r.2)
      else (false, [n])
    else (false, [])

/-- _create_volumes: builds vol_names and runs the create/attach loop under
a try block that turns any exception into a False return. -/
def _create_volumes (nodeName : String) (vol_count : Nat)
    (createOk attachOk : Nat → Bool) : Bool × List String :=
  createVolumesGo createOk attachOk (vol_names nodeName vol_count) 0

/-! ## Volume teardown (_destroy_volumes, openstack.py lines 243-255) -/

inductive VolOp where
  | detach : VolOp
  | destroy : VolOp
deriving DecidableEq

/-- One attempted driver call of the teardown sweep: which operation, on
which volume, and whether it raised (the exception being caught and logged
by the per-step try/except). -/
structure VolAttempt where
  op : VolOp
  vol : Volume
  failed : Bool
deriving DecidableEq

/-- Whether a backend call outcome is an exception. -/
def didFail (e : Except String Unit) : Bool :=
  match e with
  | Except.ok _ => false
  | Except.error _ => true

/-- One try/except block of _destroy_volumes: the call's outcome is
recorded, and an exception is caught and logged rather than propagated. -/
def attemptOp (op : VolOp) (v : Volume) (outcome : Except String Unit) : VolAttempt :=
  VolAttempt.mk op v (didFail outcome)

/-- The per-volume loop of _destroy_volumes: each owned volume gets a detach
attempt then a destroy attempt, each in its own try/except. -/
def destroyVolumesGo (detachRes destroyRes : Volume → Except String Unit) :
    List Volume → List VolAttempt
  | [] => []
  | v :: rest =>
    attemptOp VolOp.detach v (detachRes v) ::
      attemptOp VolOp.destroy v (destroyRes v) ::
        destroyVolumesGo detachRes destroyRes rest

/-- _destroy_volumes: list all volumes, keep those whose name starts with
the node name followed by an underscore, and run the detach/destroy sweep
over them.  detachRes and destroyRes are oracles for the outcomes of the
retried detach_volume and destroy_volume calls. -/
def _destroy_volumes (nodeName : String) (all_volumes : List Volume)
    (detachRes destroyRes : Volume → Except String Unit) : List VolAttempt :=
  destroyVolumesGo detachRes destroyRes
    (all_volumes.filter (fun v => strLeads (nodeName ++ "_") v.name))

/-! ## The volume phase of _create (openstack.py lines 208-216) -/

/-- Outcome of the volume-provisioning phase of _create: the value reported
to the caller (ok = false means _create returns False instead of the node),
the volume catalog after the phase, and the rollback sweep's attempts
(empty when no rollback ran). -/
structure CreateVolumesResult where
  ok : Bool
  cloudVolumes : List Volume
  rollback : List VolAttempt
deriving DecidableEq

/-- The fragment of _create around _create_volumes: when _create_volumes
returns False, _destroy_volumes sweeps the then-current volume catalog
(the preexisting volumes plus every volume the aborted loop had created)
and _create returns False. -/
def createPhase (nodeName : String) (vol_count : Nat) (preVolumes : List Volume)
    (createOk attachOk : Nat → Bool)
    (detachRes destroyRes : Volume → Except String Unit) : CreateVolumesResult :=
  let r := _create_volumes nodeName vol_count createOk attachOk
  let vols := preVolumes ++ r.2.map Volume.mk
  if r.1 then CreateVolumesResult.mk true vols []
  else CreateVolumesResult.mk false vols (_destroy_volumes nodeName vols detachRes destroyRes)

/-! ## Destruction (_destroy, openstack.py lines 390-395) -/

/-- Trace of one _destroy call: the value returned, the volume sweep's
attempts, and the node the driver destroy call ran on, if any. -/
structure DestroyTrace where
  result : Bool
  volAttempts : List VolAttempt
  destroyedNode : Option CloudNode
deriving DecidableEq

/-- _destroy: if not self.node, return True; otherwise sweep the volumes
and return the result of the node's destroy call.  The node property is
evaluated with the session's current cache; destroyNodeResult is the oracle
for the driver destroy call's return value. -/
def _destroy (selfName : String) (cache : Option CloudNode)
    (nodeCatalog : List CloudNode) (volumes : List Volume)
    (detachRes destroyRes : Volume → Except String Unit)
    (destroyNodeResult : Bool) : Except NodeLookupErr DestroyTrace :=
  match node selfName cache nodeCatalog with
  | Except.error e => Except.error e
  | Except.ok lookup =>
    match lookup.found with
    | none => Except.ok (DestroyTrace.mk true [] none)
    | some n =>
      Except.ok (DestroyTrace.mk destroyNodeResult
        (_destroy_volumes selfName volumes detachRes destroyRes) (some n))

/-! ## Proof-support definitions -/

/-- Maximum of two optional numbers, absent values contributing nothing. -/
def omax : Option Nat → Option Nat → Option Nat
  | none, b => b
  | some a, none => some a
  | some a, some b => some (max a b)

/-- Maximum of a list of numbers, none for the empty list. -/
def maxOfList : List Nat → Option Nat
  | [] => none
  | v :: t => omax (some v) (maxOfList t)

/-! ## Theorems -/

/-- Helper: when the first N outcomes starting at invocation n are rate
limits and outcome n + N is a success, the retry loop returns that success
after n + N + 1 total invocations, provided the fuel exceeds N. -/
theorem retryGo_transient_then_ok {α : Type} (f : Nat → Except CloudErr α) (a : α) :
    ∀ (N fuel n : Nat), N < fuel →
      (∀ i, i < N → f (n + i) = Except.error CloudErr.rateLimit) →
      f (n + N) = Except.ok a →
      retryGo f fuel n = RetryOutcome.ok a (n + N + 1) := by
  intro N
  induction N with
  | zero =>
    intro fuel n hfuel _ hok
    cases fuel with
    | zero => exact absurd hfuel (by omega)
    | succ fuel =>
      simp only [retryGo]
      rw [show n + 0 = n from rfl] at hok
      rw [hok]
  | succ N ih =>
    intro fuel n hfuel htrans hok
    cases fuel with
    | zero => exact absurd hfuel (by omega)
    | succ fuel =>
      have h0 : f n = Except.error CloudErr.rateLimit := by
        have := htrans 0 (Nat.succ_pos N)
        simpa using this
      have hres := ih fuel (n + 1) (by omega)
        (fun i hi => by
          have := htrans (i + 1) (Nat.succ_lt_succ hi)
          rw [show n + 1 + i = n + (i + 1) by omega]
          exact this)
        (by rw [show n + 1 + N = n + (N + 1) by omega]; exact hok)
      simp only [retryGo, h0, hres, RetryOutcome.ok.injEq]
      exact ⟨trivial, by omega⟩

/-- C3: an operation raising a transient (rate-limit) error exactly N times
and then succeeding, with N + 1 within the safe_while budget, makes retry
return the success result after exactly N + 1 invocations; an operation
raising a non-transient error propagates it at once after exactly one
invocation. -/
theorem c3_retry {α : Type} (f : Nat → Except CloudErr α) (a : α) (N : Nat)
    (hN : N + 1 ≤ safeWhileTries)
    (htrans : ∀ i, i < N → f i = Except.error CloudErr.rateLimit)
    (hok : f N = Except.ok a)
    (g : Nat → Except CloudErr α) (c : Nat)
    (hg : g 0 = Except.error (CloudErr.fatal c)) :
    retry f = RetryOutcome.ok a (N + 1) ∧
      retry g = RetryOutcome.raised (CloudErr.fatal c) 1 := by
  constructor
  · have := retryGo_transient_then_ok f a N safeWhileTries 0
      (by omega) (fun i hi => by simpa using htrans i hi) (by simpa using hok)
    simpa [retry] using this
  · show retryGo g (23 + 1) 0 = RetryOutcome.raised (CloudErr.fatal c) 1
    simp only [retryGo]
    rw [hg]

/-- Witness for c3_retry: two transient failures then success returns the
result with three invocations; a fatal error propagates after one. -/
theorem c3_retry_witness :
    retry (fun i => if i < 2 then Except.error CloudErr.rateLimit else Except.ok 7) =
      RetryOutcome.ok 7 3 ∧
    retry (fun _ => Except.error (CloudErr.fatal 5) : Nat → Except CloudErr Nat) =
      RetryOutcome.raised (CloudErr.fatal 5) 1 :=
  c3_retry (fun i => if i < 2 then Except.error CloudErr.rateLimit else Except.ok 7)
    7 2 (by decide)
    (fun i hi => by interval_cases i <;> rfl)
    rfl
    (fun _ => Except.error (CloudErr.fatal 5)) 5 rfl

/-- Helper: the fold step of combine_dicts equals omax. -/
theorem step_eq_omax (k : String) (acc : Option Nat) (c : ConfSrc) :
    (match acc, c k with
      | none, v => v
      | some a, none => some a
      | some a, some v => some (max v a)) = omax acc (c k) := by
  cases acc <;> cases hck : c k <;> simp [omax, Nat.max_comm]

/-- Helper: omax is associative. -/
theorem omax_assoc (a b c : Option Nat) : omax (omax a b) c = omax a (omax b c) := by
  cases a <;> cases b <;> cases c <;> simp [omax, Nat.max_assoc]

/-- Helper: none is a right identity of omax. -/
theorem omax_none_right (a : Option Nat) : omax a none = a := by
  cases a <;> rfl

/-- Helper: the combine_dicts fold computes the maximum of the values the
sources give the key, starting from the accumulator. -/
theorem combine_foldl_eq (k : String) :
    ∀ (l : List ConfSrc) (acc : Option Nat),
      List.foldl
          (fun acc c =>
            match acc, c k with
            | none, v => v
            | some a, none => some a
            | some a, some v => some (max v a)) acc l =
        omax acc (maxOfList (l.filterMap (fun c => c k))) := by
  intro l
  induction l with
  | nil =>
    intro acc
    cases acc <;> rfl
  | cons c t ih =>
    intro acc
    rw [List.foldl_cons, ih, step_eq_omax]
    cases hck : c k with
    | none =>
      simp only [List.filterMap_cons, hck]
      rw [omax_none_right]
    | some w =>
      simp only [List.filterMap_cons, hck, maxOfList]
      rw [omax_assoc]

/-- Helper: combine_dicts computes the maximum of the values the sources
give the key. -/
theorem combine_dicts_eq (l : List ConfSrc) (k : String) :
    combine_dicts l k = maxOfList (l.filterMap (fun c => c k)) := by
  rw [show combine_dicts l k =
      List.foldl
        (fun acc c =>
          match acc, c k with
          | none, v => v
          | some a, none => some a
          | some a, some v => some (max v a)) none l from rfl,
    combine_foldl_eq]
  rfl

/-- Helper: maxOfList is none exactly on the empty list, and maxOfList l is
some v exactly when v belongs to l and bounds l. -/
theorem maxOfList_spec :
    ∀ l : List Nat,
      (maxOfList l = none ↔ l = []) ∧
      ∀ v, maxOfList l = some v ↔ (v ∈ l ∧ ∀ w ∈ l, w ≤ v) := by
  intro l
  induction l with
  | nil => simp [maxOfList]
  | cons v t ih =>
    obtain ⟨ih1, ih2⟩ := ih
    constructor
    · cases h : maxOfList t <;> simp [maxOfList, h, omax]
    · intro u
      cases h : maxOfList t with
      | none =>
        have ht : t = [] := ih1.mp h
        subst ht
        simp only [maxOfList, h, omax, Option.some.injEq, List.mem_singleton,
          List.mem_cons, List.not_mem_nil, or_false]
        constructor
        · rintro rfl
          exact ⟨rfl, fun w hw => by rw [hw]⟩
        · rintro ⟨rfl, _⟩
          rfl
      | some m =>
        obtain ⟨hm, hbd⟩ := (ih2 m).mp h
        simp only [maxOfList, h, omax, Option.some.injEq, List.mem_cons]
        constructor
        · rintro rfl
          rcases Nat.le_total v m with hvm | hmv
          · refine ⟨Or.inr (by rwa [Nat.max_eq_right hvm]), ?_⟩
            intro w hw
            rcases hw with rfl | hw
            · exact Nat.le_max_left _ _
            · exact le_trans (hbd w hw) (Nat.le_max_right _ _)
          · refine ⟨Or.inl (by rw [Nat.max_eq_left hmv]), ?_⟩
            intro w hw
            rcases hw with rfl | hw
            · exact Nat.le_max_left _ _
            · exact le_trans (hbd w hw) (Nat.le_max_right _ _)
        · rintro ⟨hu, hub⟩
          have h1 : v ≤ u := hub v (Or.inl rfl)
          have h2 : m ≤ u := hub m (Or.inr hm)
          have h3 : u ≤ max v m := by
            rcases hu with rfl | hu
            · exact Nat.le_max_left _ _
            · exact le_trans (hbd u hu) (Nat.le_max_right _ _)
          have h4 : max v m ≤ u := Nat.max_le.mpr ⟨h1, h2⟩
          omega

/-- C2: the effective configuration built by _read_conf from the four
precedence tiers maps every key defined by at least one source to the
maximum value over the sources defining it; keys no source defines stay
absent, and absent sources contribute nothing and raise no error. -/
theorem c2_read_conf (full_conf driver_conf legacy_conf defaults : List ConfSrc)
    (k : String) :
    (_read_conf full_conf driver_conf legacy_conf defaults k = none ↔
      ∀ c ∈ full_conf ++ driver_conf ++ legacy_conf ++ defaults, c k = none) ∧
    ∀ v, _read_conf full_conf driver_conf legacy_conf defaults k = some v ↔
      ((∃ c ∈ full_conf ++ driver_conf ++ legacy_conf ++ defaults, c k = some v) ∧
       ∀ c ∈ full_conf ++ driver_conf ++ legacy_conf ++ defaults,
         ∀ w, c k = some w → w ≤ v) := by
  have base := maxOfList_spec
    ((full_conf ++ driver_conf ++ legacy_conf ++ defaults).filterMap (fun c => c k))
  rw [show _read_conf full_conf driver_conf legacy_conf defaults k =
      combine_dicts (full_conf ++ driver_conf ++ legacy_conf ++ defaults) k from rfl,
    combine_dicts_eq]
  constructor
  · rw [base.1, List.filterMap_eq_nil_iff]
  · intro v
    rw [base.2 v]
    constructor
    · rintro ⟨hv, hbd⟩
      obtain ⟨c, hc, hck⟩ := List.mem_filterMap.mp hv
      refine ⟨⟨c, hc, hck⟩, ?_⟩
      intro c hc w hw
      exact hbd w (List.mem_filterMap.mpr ⟨c, hc, hw⟩)
    · rintro ⟨⟨c, hc, hck⟩, hbd⟩
      refine ⟨List.mem_filterMap.mpr ⟨c, hc, hck⟩, ?_⟩
      intro w hw
      obtain ⟨d, hd, hdk⟩ := List.mem_filterMap.mp hw
      exact hbd d hd w hdk

/-- Witness for c2_read_conf: with ram defined 8000, 9000 and 4000 across
three tiers and absent from the defaults, the merged value is 9000. -/
theorem c2_read_conf_witness :
    _read_conf [fun s => if s == "ram" then some 8000 else none]
        [fun s => if s == "ram" then some 9000 else none]
        [fun s => if s == "ram" then some 4000 else none]
        [fun _ => none] "ram" = some 9000 := by
  apply ((c2_read_conf
      [fun s => if s == "ram" then some 8000 else none]
      [fun s => if s == "ram" then some 9000 else none]
      [fun s => if s == "ram" then some 4000 else none]
      [fun _ => none] "ram").2 9000).mpr
  constructor
  · exact ⟨fun s => if s == "ram" then some 9000 else none, by simp, by simp⟩
  · intro c hc w hw
    simp only [List.append_assoc, List.cons_append, List.nil_append,
      List.mem_cons, List.not_mem_nil, or_false] at hc
    rcases hc with rfl | rfl | rfl | rfl <;> simp_all <;> omega

/-- Helper: the head of a filtered list is the first element satisfying the
predicate. -/
theorem filter_head_find {α : Type} (p : α → Bool) (l : List α) :
    (l.filter p).head? = l.find? p := by
  induction l with
  | nil => rfl
  | cons a t ih =>
    by_cases h : p a <;> simp [List.filter_cons, List.find?_cons, h, ih]

/-- Helper: lowerStr distributes over string append. -/
theorem lowerStr_append (a b : String) : lowerStr (a ++ b) = lowerStr a ++ lowerStr b := by
  simp only [lowerStr]
  apply congrArg
  show ((a ++ b).toList).map Char.toLower =
    (String.mk (a.toList.map Char.toLower)).data ++ (String.mk (b.toList.map Char.toLower)).data
  simp [String.toList, String.data_append]

/-- C4 counterexample: the image property does not perform a
case-insensitive substring match.  With the catalog containing exactly
"Ubuntu 18.04 server" and the requested os_type "Ubuntu" and os_version
"18.04", the formatted template "Ubuntu 18.04" is a substring of the
catalog name (even case-sensitively, so certainly case-insensitively), yet
the property raises the no-matching-image error, because it lowercases only
the catalog name and compares the template verbatim. -/
theorem c4_image_counterexample :
    specCaseInsensitiveMatch ("Ubuntu" ++ " " ++ "18.04") "Ubuntu 18.04 server" = true ∧
    strIn ("Ubuntu" ++ " " ++ "18.04") "Ubuntu 18.04 server" = true ∧
    image [Image.mk "Ubuntu 18.04 server"] "Ubuntu" "18.04" =
      Except.error (ImageErr.noMatchingImage "Ubuntu" "18.04") := by
  refine ⟨by decide, by decide, ?_⟩
  rfl

/-- C4 amended: image selection tries the template os_type space os_version
and then os_type hyphen os_version, matching the formatted template as a
verbatim substring of each catalog image's lowercased name (so the match is
case-insensitive in the catalog name only), and returns the first image
matching the first template that yields at least one match; if neither
template matches any image it fails with the no-matching-image error
carrying the requested type and version.  When the requested type and
version are themselves lowercase, the per-image test coincides with the
spec's case-insensitive substring match. -/
theorem c4_image_amended (images : List Image) (t v : String) :
    (image images t v =
      match images.find? (fun i => strIn (t ++ " " ++ v) (lowerStr i.name)) with
      | some m => Except.ok m
      | none =>
        match images.find? (fun i => strIn (t ++ "-" ++ v) (lowerStr i.name)) with
        | some m => Except.ok m
        | none => Except.error (ImageErr.noMatchingImage t v)) ∧
    (lowerStr t = t → lowerStr v = v → ∀ i : Image,
      strIn (t ++ " " ++ v) (lowerStr i.name) =
        specCaseInsensitiveMatch (t ++ " " ++ v) i.name ∧
      strIn (t ++ "-" ++ v) (lowerStr i.name) =
        specCaseInsensitiveMatch (t ++ "-" ++ v) i.name) := by
  constructor
  · show (match images.filter (fun i : Image => strIn (t ++ " " ++ v) (lowerStr i.name)) with
      | m :: _ => Except.ok m
      | [] =>
        match images.filter (fun i : Image => strIn (t ++ "-" ++ v) (lowerStr i.name)) with
        | m :: _ => Except.ok m
        | [] => Except.error (ImageErr.noMatchingImage t v)) = _
    rw [← filter_head_find, ← filter_head_find]
    cases images.filter (fun i : Image => strIn (t ++ " " ++ v) (lowerStr i.name)) with
    | cons m r => rfl
    | nil =>
      cases images.filter (fun i : Image => strIn (t ++ "-" ++ v) (lowerStr i.name)) with
      | cons m r => rfl
      | nil => rfl
  · intro ht hv i
    have hsp : lowerStr " " = " " := by decide
    have hhy : lowerStr "-" = "-" := by decide
    constructor
    · show strIn (t ++ " " ++ v) (lowerStr i.name) =
        strIn (lowerStr (t ++ " " ++ v)) (lowerStr i.name)
      rw [lowerStr_append, lowerStr_append, ht, hv, hsp]
    · show strIn (t ++ "-" ++ v) (lowerStr i.name) =
        strIn (lowerStr (t ++ "-" ++ v)) (lowerStr i.name)
      rw [lowerStr_append, lowerStr_append, ht, hv, hhy]

/-- Witness for c4_image_amended: the spec's own vectors, with lowercase
requests: ubuntu 18.04 selects the first catalog entry through the first
template, centos 7 selects the second through the second template. -/
theorem c4_image_amended_witness :
    image [Image.mk "Ubuntu 18.04 server", Image.mk "centos-7"] "ubuntu" "18.04" =
      Except.ok (Image.mk "Ubuntu 18.04 server") ∧
    image [Image.mk "Ubuntu 18.04 server", Image.mk "centos-7"] "centos" "7" =
      Except.ok (Image.mk "centos-7") := by
  constructor
  · rw [(c4_image_amended [Image.mk "Ubuntu 18.04 server", Image.mk "centos-7"]
      "ubuntu" "18.04").1]
    rfl
  · rw [(c4_image_amended [Image.mk "Ubuntu 18.04 server", Image.mk "centos-7"]
      "centos" "7").1]
    rfl

/-- Helper: good_size accepts exactly the sizes meeting all three
requirements. -/
theorem good_size_iff (ram disk cpu : Nat) (s : Size) :
    good_size ram disk cpu s = true ↔ ram ≤ s.ram ∧ disk ≤ s.disk ∧ cpu ≤ s.vcpus := by
  simp only [good_size, Bool.or_eq_true, decide_eq_true_eq]
  split <;> rename_i h
  · simp only [Bool.false_eq_true, false_iff]
    omega
  · simp only [true_iff]
    omega

/-- C5: the size property restricts the catalog to the sizes meeting the
requested ram, disk and vcpus, and returns one whose (ram, disk, vcpus)
tuple is lexicographically least among the adequate sizes; with no adequate
size the subscript fails (IndexError, modelled as none), and that failure
is not wrapped in retry. -/
theorem c5_size_select (sizes : List Size) (ram disk cpu : Nat) :
    (size sizes ram disk cpu = none ↔ ∀ s ∈ sizes, good_size ram disk cpu s = false) ∧
    ∀ s, size sizes ram disk cpu = some s →
      s ∈ sizes ∧ ram ≤ s.ram ∧ disk ≤ s.disk ∧ cpu ≤ s.vcpus ∧
      ∀ t ∈ sizes, good_size ram disk cpu t = true →
        (s.ram < t.ram ∨ (s.ram = t.ram ∧
          (s.disk < t.disk ∨ (s.disk = t.disk ∧ s.vcpus ≤ t.vcpus)))) := by
  constructor
  · rw [size, List.head?_eq_none_iff]
    constructor
    · intro h
      have hp := List.perm_insertionSort sizeKeyLE (sizes.filter (good_size ram disk cpu))
      rw [h] at hp
      have hnil : sizes.filter (good_size ram disk cpu) = [] := hp.symm.eq_nil
      intro s hs
      have := List.filter_eq_nil_iff.mp hnil s hs
      cases hgs : good_size ram disk cpu s
      · rfl
      · exact absurd hgs this
    · intro h
      have hnil : sizes.filter (good_size ram disk cpu) = [] := by
        apply List.filter_eq_nil_iff.mpr
        intro s hs
        rw [h s hs]
        exact Bool.false_ne_true
      rw [hnil]
      rfl
  · intro s hs
    rw [size] at hs
    cases hsort : List.insertionSort sizeKeyLE (sizes.filter (good_size ram disk cpu)) with
    | nil =>
      rw [hsort] at hs
      cases hs
    | cons a rest =>
      rw [hsort] at hs
      have ha : a = s := by
        simp only [List.head?_cons, Option.some.injEq] at hs
        exact hs
      subst ha
      have hperm := List.perm_insertionSort sizeKeyLE (sizes.filter (good_size ram disk cpu))
      rw [hsort] at hperm
      have hmem : a ∈ sizes.filter (good_size ram disk cpu) :=
        hperm.subset (List.mem_cons_self a rest)
      have hmem' := List.mem_filter.mp hmem
      have hgs := (good_size_iff ram disk cpu a).mp hmem'.2
      refine ⟨hmem'.1, hgs.1, hgs.2.1, hgs.2.2, ?_⟩
      intro t ht hgt
      have htf : t ∈ sizes.filter (good_size ram disk cpu) :=
        List.mem_filter.mpr ⟨ht, hgt⟩
      have htins : t ∈ a :: rest := hperm.symm.subset htf
      rcases List.mem_cons.mp htins with rfl | htl
      · omega
      · have hsorted := List.sorted_insertionSort sizeKeyLE
          (sizes.filter (good_size ram disk cpu))
        rw [hsort] at hsorted
        have hrel := List.rel_of_sorted_cons hsorted t htl
        simp only [sizeKeyLE, Bool.or_eq_true, Bool.and_eq_true, decide_eq_true_eq,
          beq_iff_eq] at hrel
        omega

/-- Witness for c5_size_select: the spec's vector, sizes A(4,10,1),
B(8,20,2), C(8,40,2) with request ram 8, disk 20, cpu 2 select B. -/
theorem c5_size_select_witness :
    size [Size.mk "A" 4 10 1, Size.mk "B" 8 20 2, Size.mk "C" 8 40 2] 8 20 2 =
      some (Size.mk "B" 8 20 2) ∧
    Size.mk "B" 8 20 2 ∈ [Size.mk "A" 4 10 1, Size.mk "B" 8 20 2, Size.mk "C" 8 40 2] := by
  have h := (c5_size_select [Size.mk "A" 4 10 1, Size.mk "B" 8 20 2, Size.mk "C" 8 40 2]
      8 20 2).2 (Size.mk "B" 8 20 2) (by decide)
  exact ⟨by decide, h.1⟩

/-- Helper: when every name in the list has exactly one exact-name match,
resolveGroupNames succeeds with the matches in request order. -/
theorem resolveGroupNames_all_one (groups : List SecurityGroup) :
    ∀ names : List String,
      (∀ m ∈ names, (groups.filter (fun g => g.name == m)).length = 1) →
      resolveGroupNames groups names =
        Except.ok (names.filterMap (fun m => (groups.filter (fun g => g.name == m)).head?)) := by
  intro names
  induction names with
  | nil => intro _; rfl
  | cons n rest ih =>
    intro h
    have hn := h n (List.mem_cons_self n rest)
    cases hf : groups.filter (fun g => g.name == n) with
    | nil => rw [hf] at hn; cases hn
    | cons g r =>
      cases r with
      | cons g2 r2 => rw [hf] at hn; simp at hn
      | nil =>
        show (match groups.filter (fun g => g.name == n) with
          | [] => Except.error (SecGroupErr.notFound n)
          | [g] => (resolveGroupNames groups rest).map (fun r => g :: r)
          | _ :: _ :: _ => Except.error (SecGroupErr.ambiguous n)) = _
        rw [hf, ih (fun m hm => h m (List.mem_cons_of_mem n hm))]
        simp only [Except.map, List.filterMap_cons, hf, List.head?_cons]

/-- Helper: a prefix of names that each have exactly one match does not
change an error produced further down the name list. -/
theorem resolveGroupNames_prefix_error (groups : List SecurityGroup)
    (rest : List String) (e : SecGroupErr)
    (herr : resolveGroupNames groups rest = Except.error e) :
    ∀ pre : List String,
      (∀ m ∈ pre, (groups.filter (fun g => g.name == m)).length = 1) →
      resolveGroupNames groups (pre ++ rest) = Except.error e := by
  intro pre
  induction pre with
  | nil => intro _; simpa using herr
  | cons n pre ih =>
    intro h
    have hn := h n (List.mem_cons_self n pre)
    cases hf : groups.filter (fun g => g.name == n) with
    | nil => rw [hf] at hn; cases hn
    | cons g r =>
      cases r with
      | cons g2 r2 => rw [hf] at hn; simp at hn
      | nil =>
        show (match groups.filter (fun g => g.name == n) with
          | [] => Except.error (SecGroupErr.notFound n)
          | [g] => (resolveGroupNames groups (pre ++ rest)).map (fun r => g :: r)
          | _ :: _ :: _ => Except.error (SecGroupErr.ambiguous n)) = _
        rw [hf, ih (fun m hm => h m (List.mem_cons_of_mem n hm))]
        rfl

/-- C6: with no names configured, the security_groups property returns the
absent value, not an empty list; when every configured name has exactly one
exact-name match the property returns the matched groups in order; and the
first configured name with zero matches (all earlier names having exactly
one) raises the fatal not-found error, while the first with more than one
match raises the fatal ambiguity error. -/
theorem c6_security_groups (groups : List SecurityGroup)
    (names pre post : List String) (n : String) :
    (security_groups none groups = Except.ok none) ∧
    ((∀ m ∈ names, (groups.filter (fun g => g.name == m)).length = 1) →
      security_groups (some names) groups =
        Except.ok (some (names.filterMap
          (fun m => (groups.filter (fun g => g.name == m)).head?)))) ∧
    ((∀ m ∈ pre, (groups.filter (fun g => g.name == m)).length = 1) →
      (groups.filter (fun g => g.name == n)).length = 0 →
      security_groups (some (pre ++ n :: post)) groups =
        Except.error (SecGroupErr.notFound n)) ∧
    ((∀ m ∈ pre, (groups.filter (fun g => g.name == m)).length = 1) →
      1 < (groups.filter (fun g => g.name == n)).length →
      security_groups (some (pre ++ n :: post)) groups =
        Except.error (SecGroupErr.ambiguous n)) := by
  refine ⟨rfl, ?_, ?_, ?_⟩
  · intro h
    show (resolveGroupNames groups names).map some = _
    rw [resolveGroupNames_all_one groups names h]
    rfl
  · intro hpre hzero
    have hnil : groups.filter (fun g => g.name == n) = [] :=
      List.length_eq_zero.mp hzero
    have herr : resolveGroupNames groups (n :: post) =
        Except.error (SecGroupErr.notFound n) := by
      show (match groups.filter (fun g => g.name == n) with
        | [] => Except.error (SecGroupErr.notFound n)
        | [g] => (resolveGroupNames groups post).map (fun r => g :: r)
        | _ :: _ :: _ => Except.error (SecGroupErr.ambiguous n)) = _
      rw [hnil]
    show (resolveGroupNames groups (pre ++ n :: post)).map some = _
    rw [resolveGroupNames_prefix_error groups (n :: post) _ herr pre hpre]
    rfl
  · intro hpre htwo
    have herr : resolveGroupNames groups (n :: post) =
        Except.error (SecGroupErr.ambiguous n) := by
      cases hf : groups.filter (fun g => g.name == n) with
      | nil => rw [hf] at htwo; cases htwo
      | cons g r =>
        cases r with
        | nil => rw [hf] at htwo; simp at htwo
        | cons g2 r2 =>
          show (match groups.filter (fun g => g.name == n) with
            | [] => Except.error (SecGroupErr.notFound n)
            | [g] => (resolveGroupNames groups post).map (fun r => g :: r)
            | _ :: _ :: _ => Except.error (SecGroupErr.ambiguous n)) = _
          rw [hf]
    show (resolveGroupNames groups (pre ++ n :: post)).map some = _
    rw [resolveGroupNames_prefix_error groups (n :: post) _ herr pre hpre]
    rfl

/-- Witness for c6_security_groups: one group named web resolves; two
groups named web are ambiguous; a missing name is not found; no configured
names yield the absent value. -/
theorem c6_security_groups_witness :
    security_groups (some ["web"]) [SecurityGroup.mk "web" 0] =
      Except.ok (some [SecurityGroup.mk "web" 0]) ∧
    security_groups (some ["web"]) [SecurityGroup.mk "web" 0, SecurityGroup.mk "web" 1] =
      Except.error (SecGroupErr.ambiguous "web") ∧
    security_groups (some ["db"]) [SecurityGroup.mk "web" 0] =
      Except.error (SecGroupErr.notFound "db") ∧
    security_groups none [SecurityGroup.mk "web" 0] = Except.ok none := by
  have h1 := (c6_security_groups [SecurityGroup.mk "web" 0] ["web"] [] [] "z").2.1
    (by decide)
  have h2 := (c6_security_groups [SecurityGroup.mk "web" 0, SecurityGroup.mk "web" 1]
    [] [] [] "web").2.2.2 (by decide) (by decide)
  have h3 := (c6_security_groups [SecurityGroup.mk "web" 0] [] [] [] "db").2.2.1
    (by decide) (by decide)
  exact ⟨h1.trans (by rfl), h2, h3, rfl⟩

/-- C7: evaluation of the node accessor.  The claim says zero exact-name
matches is non-fatal and returns a not-found result; the code does so only
when the catalog is non-empty.  With an empty catalog (first conjunct,
the failing input) the for-loop body never runs, self._node was never
assigned, and the final return raises AttributeError instead.  The
remaining conjuncts record the behavior the claim describes elsewhere:
zero matches in a non-empty catalog is non-fatal with one query and no
caching; one match is cached after one query; a second access with the
populated cache returns the same object with zero further queries (at most
one query across both calls); two matches raise the ambiguity error. -/
theorem c7_node_lookup :
    node "foo" none [] = Except.error NodeLookupErr.attributeError ∧
    node "foo" none [CloudNode.mk "bar" 1] =
      Except.ok (NodeLookup.mk none none 1) ∧
    node "foo" none [CloudNode.mk "bar" 1, CloudNode.mk "foo" 2] =
      Except.ok (NodeLookup.mk (some (CloudNode.mk "foo" 2)) (some (CloudNode.mk "foo" 2)) 1) ∧
    node "foo" (some (CloudNode.mk "foo" 2)) [CloudNode.mk "bar" 1, CloudNode.mk "foo" 2] =
      Except.ok (NodeLookup.mk (some (CloudNode.mk "foo" 2)) (some (CloudNode.mk "foo" 2)) 0) ∧
    node "foo" none [CloudNode.mk "foo" 1, CloudNode.mk "foo" 2] =
      Except.error (NodeLookupErr.ambiguous "foo") :=
  ⟨rfl, rfl, rfl, rfl, rfl⟩

/-- C8: evaluation of _destroy.  The claim says any name with no matching
node yields success with no volume or node calls; through the node
accessor's empty-catalog defect (first conjunct, the failing input) an
empty live catalog instead propagates AttributeError.  With a non-empty
catalog and no match, _destroy returns True having attempted nothing; with
a match it sweeps exactly the prefix-owned volumes (detach then destroy,
failures caught) and returns the driver destroy call's result. -/
theorem c8_destroy_workflow :
    _destroy "foo" none [] [Volume.mk "foo_0"]
        (fun _ => Except.ok ()) (fun _ => Except.ok ()) true =
      Except.error NodeLookupErr.attributeError ∧
    _destroy "foo" none [CloudNode.mk "bar" 1] [Volume.mk "foo_0"]
        (fun _ => Except.ok ()) (fun _ => Except.ok ()) true =
      Except.ok (DestroyTrace.mk true [] none) ∧
    _destroy "foo" none [CloudNode.mk "foo" 1, CloudNode.mk "bar" 2]
        [Volume.mk "foo_0", Volume.mk "bar_0"]
        (fun _ => Except.ok ()) (fun _ => Except.error "boom") false =
      Except.ok (DestroyTrace.mk false
        [VolAttempt.mk VolOp.detach (Volume.mk "foo_0") false,
         VolAttempt.mk VolOp.destroy (Volume.mk "foo_0") true]
        (some (CloudNode.mk "foo" 1))) :=
  ⟨rfl, rfl, rfl⟩

/-- Helper: destroyVolumesGo attempts detach then destroy on every listed
volume, whatever the call outcomes. -/
theorem destroyVolumesGo_mem (detachRes destroyRes : Volume → Except String Unit) :
    ∀ l : List Volume, ∀ v ∈ l,
      attemptOp VolOp.detach v (detachRes v) ∈ destroyVolumesGo detachRes destroyRes l ∧
      attemptOp VolOp.destroy v (destroyRes v) ∈ destroyVolumesGo detachRes destroyRes l := by
  intro l
  induction l with
  | nil => intro v hv; cases hv
  | cons w t ih =>
    intro v hv
    rcases List.mem_cons.mp hv with rfl | hv
    · exact ⟨List.mem_cons_self _ _,
        List.mem_cons_of_mem _ (List.mem_cons_self _ _)⟩
    · obtain ⟨h1, h2⟩ := ih v hv
      exact ⟨List.mem_cons_of_mem _ (List.mem_cons_of_mem _ h1),
        List.mem_cons_of_mem _ (List.mem_cons_of_mem _ h2)⟩

/-- Helper: the sequence of operations destroyVolumesGo attempts does not
depend on the call outcomes. -/
theorem destroyVolumesGo_ops (detachRes destroyRes : Volume → Except String Unit) :
    ∀ l : List Volume,
      (destroyVolumesGo detachRes destroyRes l).map (fun a => (a.op, a.vol)) =
        l.flatMap (fun v => [(VolOp.detach, v), (VolOp.destroy, v)]) := by
  intro l
  induction l with
  | nil => rfl
  | cons w t ih =>
    simp only [destroyVolumesGo, attemptOp, List.map_cons, ih, List.flatMap_cons,
      List.cons_append, List.nil_append]

/-- C9: in the _destroy_volumes sweep every prefix-owned volume receives a
detach attempt and a destroy attempt whatever the outcomes of any of the
calls -- a failure of a volume's detach does not suppress the destroy
attempt on the same volume nor any attempt on any other volume, and no
failure propagates (the sweep always returns its full trace); moreover the
sequence of attempted operations is exactly the failure-independent
detach-then-destroy sweep over the prefix-matched volumes. -/
theorem c9_destroy_volumes_sweep (nodeName : String) (all_volumes : List Volume)
    (detachRes destroyRes : Volume → Except String Unit) :
    (∀ v ∈ all_volumes, strLeads (nodeName ++ "_") v.name = true →
      VolAttempt.mk VolOp.detach v (didFail (detachRes v)) ∈
        _destroy_volumes nodeName all_volumes detachRes destroyRes ∧
      VolAttempt.mk VolOp.destroy v (didFail (destroyRes v)) ∈
        _destroy_volumes nodeName all_volumes detachRes destroyRes) ∧
    (_destroy_volumes nodeName all_volumes detachRes destroyRes).map
        (fun a => (a.op, a.vol)) =
      (all_volumes.filter (fun v => strLeads (nodeName ++ "_") v.name)).flatMap
        (fun v => [(VolOp.detach, v), (VolOp.destroy, v)]) := by
  constructor
  · intro v hv hpre
    have hvf : v ∈ all_volumes.filter (fun v => strLeads (nodeName ++ "_") v.name) :=
      List.mem_filter.mpr ⟨hv, hpre⟩
    exact destroyVolumesGo_mem detachRes destroyRes _ v hvf
  · exact destroyVolumesGo_ops detachRes destroyRes _

/-- Witness for c9_destroy_volumes_sweep: with the detach of volume n_0
failing, the sweep still records its destroy attempt and both attempts on
the other owned volume n_1, skipping the foreign volume x_0. -/
theorem c9_destroy_volumes_sweep_witness :
    VolAttempt.mk VolOp.detach (Volume.mk "n_0") true ∈
      _destroy_volumes "n" [Volume.mk "n_0", Volume.mk "x_0", Volume.mk "n_1"]
        (fun v => if v.name == "n_0" then Except.error "boom" else Except.ok ())
        (fun _ => Except.ok ()) ∧
    VolAttempt.mk VolOp.destroy (Volume.mk "n_0") false ∈
      _destroy_volumes "n" [Volume.mk "n_0", Volume.mk "x_0", Volume.mk "n_1"]
        (fun v => if v.name == "n_0" then Except.error "boom" else Except.ok ())
        (fun _ => Except.ok ()) ∧
    VolAttempt.mk VolOp.detach (Volume.mk "n_1") false ∈
      _destroy_volumes "n" [Volume.mk "n_0", Volume.mk "x_0", Volume.mk "n_1"]
        (fun v => if v.name == "n_0" then Except.error "boom" else Except.ok ())
        (fun _ => Except.ok ()) := by
  have h0 := (c9_destroy_volumes_sweep "n"
    [Volume.mk "n_0", Volume.mk "x_0", Volume.mk "n_1"]
    (fun v => if v.name == "n_0" then Except.error "boom" else Except.ok ())
    (fun _ => Except.ok ())).1 (Volume.mk "n_0") (by decide) (by decide)
  have h1 := (c9_destroy_volumes_sweep "n"
    [Volume.mk "n_0", Volume.mk "x_0", Volume.mk "n_1"]
    (fun v => if v.name == "n_0" then Except.error "boom" else Except.ok ())
    (fun _ => Except.ok ())).1 (Volume.mk "n_1") (by decide) (by decide)
  exact ⟨h0.1, h0.2, h1.1⟩

/-- Helper: the create/attach loop aborts at the first failing call,
returning False together with exactly the volumes created up to the
abort (including the one whose attach, not create, failed). -/
theorem createVolumesGo_abort (createOk attachOk : Nat → Bool) :
    ∀ (j : Nat) (names : List String) (i : Nat), j < names.length →
      (∀ t, t < j → createOk (i + t) = true ∧ attachOk (i + t) = true) →
      (createOk (i + j) = false ∨ attachOk (i + j) = false) →
      createVolumesGo createOk attachOk names i =
        (false, names.take (if createOk (i + j) then j + 1 else j)) := by
  intro j
  induction j with
  | zero =>
    intro names i hlen _ hfail
    cases names with
    | nil => simp at hlen
    | cons n rest =>
      rw [show i + 0 = i from rfl] at hfail ⊢
      rcases hfail with hc | ha
      · simp [createVolumesGo, hc]
      · cases hcOk : createOk i with
        | false => simp [createVolumesGo, hcOk]
        | true => simp [createVolumesGo, hcOk, ha]
  | succ j ih =>
    intro names i hlen hbefore hfail
    cases names with
    | nil => simp at hlen
    | cons n rest =>
      have h0 := hbefore 0 (Nat.succ_pos j)
      rw [show i + 0 = i from rfl] at h0
      have hrest := ih rest (i + 1)
        (by simpa using Nat.lt_of_succ_lt_succ (by simpa using hlen))
        (fun t ht => by
          have := hbefore (t + 1) (Nat.succ_lt_succ ht)
          rw [show i + 1 + t = i + (t + 1) by omega]
          exact this)
        (by rw [show i + 1 + j = i + (j + 1) by omega]; exact hfail)
      rw [show i + (j + 1) = i + 1 + j by omega]
      simp only [createVolumesGo, h0.1, h0.2, if_true, hrest]
      cases hcj : createOk (i + 1 + j) <;> simp [List.take]

/-- C1: when any create_volume or attach_volume call in the volume loop
raises, the loop aborts at that call (the volumes actually created are
exactly those up to the failing index), _create then runs the rollback
sweep that attempts detach and then destroy on every volume of the
then-current catalog whose name starts with the node-name prefix, and
_create reports overall failure to its caller instead of the node. -/
theorem c1_create_volume_rollback (nodeName : String) (vol_count : Nat)
    (preVolumes : List Volume) (createOk attachOk : Nat → Bool)
    (detachRes destroyRes : Volume → Except String Unit) (j : Nat)
    (hj : j < vol_count)
    (hbefore : ∀ t, t < j → createOk t = true ∧ attachOk t = true)
    (hfail : createOk j = false ∨ attachOk j = false) :
    (createPhase nodeName vol_count preVolumes createOk attachOk
        detachRes destroyRes).ok = false ∧
    (_create_volumes nodeName vol_count createOk attachOk).2 =
      (vol_names nodeName vol_count).take (if createOk j then j + 1 else j) ∧
    ∀ v ∈ (createPhase nodeName vol_count preVolumes createOk attachOk
        detachRes destroyRes).cloudVolumes,
      strLeads (nodeName ++ "_") v.name = true →
      VolAttempt.mk VolOp.detach v (didFail (detachRes v)) ∈
        (createPhase nodeName vol_count preVolumes createOk attachOk
          detachRes destroyRes).rollback ∧
      VolAttempt.mk VolOp.destroy v (didFail (destroyRes v)) ∈
        (createPhase nodeName vol_count preVolumes createOk attachOk
          detachRes destroyRes).rollback := by
  have hlen : (vol_names nodeName vol_count).length = vol_count := by
    simp [vol_names]
  have habort := createVolumesGo_abort createOk attachOk j
    (vol_names nodeName vol_count) 0 (by rw [hlen]; exact hj)
    (fun t ht => by simpa using hbefore t ht)
    (by simpa using hfail)
  simp only [Nat.zero_add] at habort
  have hcv : _create_volumes nodeName vol_count createOk attachOk =
      (false, (vol_names nodeName vol_count).take (if createOk j then j + 1 else j)) :=
    habort
  have hphase : createPhase nodeName vol_count preVolumes createOk attachOk
      detachRes destroyRes =
    CreateVolumesResult.mk false
      (preVolumes ++ ((vol_names nodeName vol_count).take
        (if createOk j then j + 1 else j)).map Volume.mk)
      (_destroy_volumes nodeName
        (preVolumes ++ ((vol_names nodeName vol_count).take
          (if createOk j then j + 1 else j)).map Volume.mk)
        detachRes destroyRes) := by
    simp only [createPhase, hcv, Bool.false_eq_true, if_false]
  refine ⟨by rw [hphase], hcv ▸ rfl, ?_⟩
  intro v hv hpre
  rw [hphase] at hv
  rw [hphase]
  have hvf : v ∈ (preVolumes ++ ((vol_names nodeName vol_count).take
      (if createOk j then j + 1 else j)).map Volume.mk).filter
      (fun w => strLeads (nodeName ++ "_") w.name) :=
    List.mem_filter.mpr ⟨hv, hpre⟩
  exact destroyVolumesGo_mem detachRes destroyRes _ v hvf

/-- Witness for c1_create_volume_rollback: three volumes requested, the
second create fails; the phase reports failure, volume node1_0 was created
and both it and the stale prefix-owned volume get detach and destroy
attempts in the rollback. -/
theorem c1_create_volume_rollback_witness :
    (createPhase "node1" 3 [Volume.mk "node1_stale"]
        (fun i => !(i == 1)) (fun _ => true)
        (fun _ => Except.ok ()) (fun _ => Except.ok ())).ok = false ∧
    VolAttempt.mk VolOp.detach (Volume.mk "node1_0") false ∈
      (createPhase "node1" 3 [Volume.mk "node1_stale"]
        (fun i => !(i == 1)) (fun _ => true)
        (fun _ => Except.ok ()) (fun _ => Except.ok ())).rollback ∧
    VolAttempt.mk VolOp.destroy (Volume.mk "node1_stale") false ∈
      (createPhase "node1" 3 [Volume.mk "node1_stale"]
        (fun i => !(i == 1)) (fun _ => true)
        (fun _ => Except.ok ()) (fun _ => Except.ok ())).rollback := by
  have h := c1_create_volume_rollback "node1" 3 [Volume.mk "node1_stale"]
    (fun i => !(i == 1)) (fun _ => true)
    (fun _ => Except.ok ()) (fun _ => Except.ok ())
    1 (by decide)
    (fun t ht => by interval_cases t; exact ⟨rfl, rfl⟩)
    (Or.inl rfl)
  exact ⟨h.1,
    (h.2.2 (Volume.mk "node1_0") (by decide) (by decide)).1,
    (h.2.2 (Volume.mk "node1_stale") (by decide) (by decide)).2⟩

/-- Helper: a character list is a prefix of itself extended. -/
theorem leadsWith_append (l r : List Char) : leadsWith l (l ++ r) = true := by
  induction l with
  | nil => rfl
  | cons a as ih => simp [leadsWith, ih]

/-- Helper: a string starts with itself extended. -/
theorem strLeads_append (p s : String) : strLeads p (p ++ s) = true := by
  show leadsWith p.toList (p ++ s).toList = true
  have h : (p ++ s).toList = p.toList ++ s.toList := by
    simp [String.toList, String.data_append]
  rw [h]
  exact leadsWith_append _ _

/-- C10: every volume name generated by _create_volumes is the node name,
an underscore, and the zero-padded index, so it carries the node-name
prefix, and any volume bearing such a name in any catalog is discovered by
the cleanup sweep's prefix filter; ownership is recoverable from the name
alone, with no tracked list. -/
theorem c10_volume_ownership (nodeName : String) (vol_count : Nat) (nm : String)
    (hnm : nm ∈ vol_names nodeName vol_count) :
    strLeads (nodeName ++ "_") nm = true ∧
    (∃ i, i < vol_count ∧ nm = nodeName ++ "_" ++ zeroPad (volNameWidth vol_count) i ∧
      zeroPad (volNameWidth vol_count) i =
        String.mk (List.replicate
          (volNameWidth vol_count - (toString i).length) '0') ++ toString i) ∧
    ∀ (vols : List Volume), ∀ v ∈ vols, v.name = nm →
      v ∈ vols.filter (fun w => strLeads (nodeName ++ "_") w.name) := by
  obtain ⟨i, hi, hname⟩ :
      ∃ i, i < vol_count ∧
        nodeName ++ "_" ++ zeroPad (volNameWidth vol_count) i = nm := by
    simpa [vol_names] using hnm
  have hpre : strLeads (nodeName ++ "_") nm = true := by
    rw [← hname]
    exact strLeads_append (nodeName ++ "_") (zeroPad (volNameWidth vol_count) i)
  refine ⟨hpre, ⟨i, hi, hname.symm, rfl⟩, ?_⟩
  intro vols v hv hvn
  apply List.mem_filter.mpr
  refine ⟨hv, ?_⟩
  rw [hvn]
  exact hpre

/-- Witness for c10_volume_ownership: with eleven volumes the width is two,
the generated name node_03 carries the node prefix. -/
theorem c10_volume_ownership_witness :
    strLeads ("node" ++ "_") "node_03" = true :=
  (c10_volume_ownership "node" 11 "node_03" (by decide)).1

end OpenStack
